import Mathlib

/-!
Verification development for the mail-server deferred-delivery reporting
subsystem: a shallow embedding of the lookup store dispatch layer
(crates/store/src/dispatch/lookup.rs), the fail2ban blocking layer
(crates/store/src/dispatch/blocked.rs), and the TLS aggregate reporting
pipeline (crates/smtp/src/reporting/tls.rs), together with theorems about
rate limiting, soft checks, lazy expiry, backend capability errors,
report aggregation, delivery fallback and idempotent cleanup.
-/

/-! ## Byte strings and association lists -/

/-- Raw byte strings (Rust `Vec<u8>`); each element is intended to be < 256. -/
abbrev Bytes := List Nat

/-- `u64::MAX`, the sentinel expiry meaning "never expires". -/
def u64MAX : Nat := 2 ^ 64 - 1

/-- Big-endian 8-byte encoding of a 64-bit number (`u64::to_be_bytes`). -/
def beBytes (n : Nat) : Bytes :=
  [n / 2 ^ 56 % 256, n / 2 ^ 48 % 256, n / 2 ^ 40 % 256, n / 2 ^ 32 % 256,
   n / 2 ^ 24 % 256, n / 2 ^ 16 % 256, n / 2 ^ 8 % 256, n % 256]

/-- Lookup in an association list (models a keyed value store). -/
def alookup {κ ν : Type} [DecidableEq κ] : List (κ × ν) → κ → Option ν
  | [], _ => none
  | (k', v) :: rest, k => if k' = k then some v else alookup rest k

/-- Upsert into an association list: replace the binding if the key is
present, otherwise append it. -/
def aset {κ ν : Type} [DecidableEq κ] : List (κ × ν) → κ → ν → List (κ × ν)
  | [], k, v => [(k, v)]
  | (k', v') :: rest, k, v =>
    if k' = k then (k, v) :: rest else (k', v') :: aset rest k v

/-- Remove a key from an association list. -/
def aerase {κ ν : Type} [DecidableEq κ] (l : List (κ × ν)) (k : κ) : List (κ × ν) :=
  l.filter (fun p => decide (p.1 ≠ k))

/-! ## Lookup store data model

The `LookupStore` enum dispatches over backend variants.  The
transactional-KV variant (`LookupStore::Store`) holds three keyed
families used by the dispatch layer: TTL'd lookup keys
(`LookupClass::Key`, stored as an expiry timestamp followed by the raw
value), atomic counters (`LookupClass::Counter`) and their paired expiry
records (`LookupClass::CounterExpiry`).  The source serializes the expiry
as an 8-byte big-endian prefix of the stored value; the embedding keeps
the pair structurally. -/

/-- Stored values returned by `key_get` (the relevant arms of `Value`). -/
inductive StoreValue where
  | bool (b : Bool)
  | text (t : String)
  | bytes (b : Bytes)
deriving DecidableEq

/-- State of the transactional-KV backend as seen by the dispatch layer. -/
structure StoreState where
  lookupKeys : List (Bytes × (Nat × Bytes))
  counters : List (Bytes × Int)
  counterExpiry : List (Bytes × Nat)
deriving DecidableEq

/-- `MemoryStore`: a static list or map backend. -/
inductive MemoryStore where
  | list (entries : List String)
  | map (entries : List (String × StoreValue))
deriving DecidableEq

/-- Modelled from the spec: the relational-query backend
(`LookupStore::Query`), abstracted as the key-to-first-row mapping its
parametrized query produces; the SQL engine itself is out of scope. -/
structure QueryStore where
  rows : List (String × StoreValue)
deriving DecidableEq

/-- The backend dispatch enum (Redis arm is behind a disabled feature
flag and is not modelled). -/
inductive LookupStore where
  | store (st : StoreState)
  | memory (m : MemoryStore)
  | query (q : QueryStore)
deriving DecidableEq

/-- `crate::Error` as produced by the dispatch layer. -/
inductive StoreError where
  | internal (msg : String)
deriving DecidableEq

/-- Decode bytes as a UTF-8-ish string (`String::from_utf8(key).unwrap_or_default()`);
faithful on the ASCII keys the dispatch layer uses. -/
def bytesToStr (b : Bytes) : String :=
  String.mk (b.map Char.ofNat)

/-- State left behind by an operation: the new state on success, the
original state when the operation failed (errors never commit). -/
def stateAfter {α : Type} (s : LookupStore) : Except StoreError (α × LookupStore) → LookupStore
  | .ok (_, s') => s'
  | .error _ => s

/-! ## Lookup store operations (dispatch/lookup.rs) -/

/-- `LookupStore::key_set`: on the KV variant, upsert the key with an
absolute expiry of `now + expires` (or `u64::MAX` when no TTL); on the
query variant the configured SQL statement runs (its effect is outside
the modelled state); the memory variant does not support writes. -/
def LookupStore.key_set (s : LookupStore) (key : Bytes) (value : Bytes)
    (expires : Option Nat) (now : Nat) : Except StoreError (Unit × LookupStore) :=
  match s with
  | .store st =>
    .ok ((), .store { st with
      lookupKeys :=
        aset st.lookupKeys key
          ((match expires with
            | some e => now + e
            | none => u64MAX), value) })
  | .query _ => .ok ((), s)
  | .memory _ => .error (.internal ("This store does not support key_set"))

/-- `LookupStore::counter_incr`: on the KV variant, write the counter
expiry (when a TTL is given) and add `value` to the counter in one batch,
returning `Ok(0)` because the backend write does not report the new
value; other variants do not support counters. -/
def LookupStore.counter_incr (s : LookupStore) (key : Bytes) (value : Int)
    (expires : Option Nat) (now : Nat) : Except StoreError (Int × LookupStore) :=
  match s with
  | .store st =>
    let st1 :=
      match expires with
      | some e => { st with counterExpiry := aset st.counterExpiry key (now + e) }
      | none => st
    let st2 := { st1 with
      counters := aset st1.counters key ((alookup st1.counters key).getD 0 + value) }
    .ok (0, .store st2)
  | .memory _ => .error (.internal ("This store does not support counter_incr"))
  | .query _ => .error (.internal ("This store does not support counter_incr"))

/-- `LookupStore::key_delete` (the source's unsupported-variant message
says `key_set`; kept verbatim). -/
def LookupStore.key_delete (s : LookupStore) (key : Bytes) :
    Except StoreError (Unit × LookupStore) :=
  match s with
  | .store st => .ok ((), .store { st with lookupKeys := aerase st.lookupKeys key })
  | .memory _ => .error (.internal ("This store does not support key_set"))
  | .query _ => .error (.internal ("This store does not support key_set"))

/-- `LookupStore::counter_delete` (same verbatim `key_set` message). -/
def LookupStore.counter_delete (s : LookupStore) (key : Bytes) :
    Except StoreError (Unit × LookupStore) :=
  match s with
  | .store st => .ok ((), .store { st with counters := aerase st.counters key })
  | .memory _ => .error (.internal ("This store does not support key_set"))
  | .query _ => .error (.internal ("This store does not support key_set"))

/-- `LookupStore::key_get`: on the KV variant, deserialization via
`LookupValue` yields the value only while `expires > now` (lazy expiry at
read time); the memory list variant reports membership as `Bool(true)`;
the memory map and query variants return the mapped value. -/
def LookupStore.key_get (s : LookupStore) (key : Bytes) (now : Nat) :
    Except StoreError (Option StoreValue × LookupStore) :=
  match s with
  | .store st =>
    match alookup st.lookupKeys key with
    | some (expires, v) => .ok ((if now < expires then some (.bytes v) else none), s)
    | none => .ok (none, s)
  | .memory m =>
    match m with
    | .list entries =>
      .ok ((if entries.contains (bytesToStr key) then some (.bool true) else none), s)
    | .map entries => .ok (alookup entries (bytesToStr key), s)
  | .query q => .ok (alookup q.rows (bytesToStr key), s)

/-- Modelled from the spec for the backend side: `Store::get_counter`
(outside src/) yields 0 for a missing counter, so the dispatch arm reads
the accumulated value directly. -/
def LookupStore.counter_get (s : LookupStore) (key : Bytes) :
    Except StoreError (Int × LookupStore) :=
  match s with
  | .store st => .ok ((alookup st.counters key).getD 0, s)
  | .memory _ => .error (.internal ("This store does not support counter_get"))
  | .query _ => .error (.internal ("This store does not support counter_get"))

/-- `LookupStore::purge_expired`: the KV variant scans lookup keys whose
stored expiry is at or before the current time and clears them, then
scans counter-expiry records the same way and clears each expired counter
together with its expiry record (the source flushes deletions in batches
of 1000 operations; only the net effect is modelled).  The memory and
query arms fall through to `Ok(())` without touching anything. -/
def LookupStore.purge_expired (s : LookupStore) (now : Nat) :
    Except StoreError (Unit × LookupStore) :=
  match s with
  | .store st =>
    let st1 := { st with
      lookupKeys := st.lookupKeys.filter (fun kv => decide (now < kv.2.1)) }
    let expired := (st1.counterExpiry.filter (fun kv => decide (kv.2 ≤ now))).map Prod.fst
    let st2 := { st1 with
      counters := st1.counters.filter (fun kv => decide (kv.1 ∉ expired)),
      counterExpiry := st1.counterExpiry.filter (fun kv => decide (kv.1 ∉ expired)) }
    .ok ((), .store st2)
  | .memory _ => .ok ((), s)
  | .query _ => .ok ((), s)

/-! ## Rate limiter (dispatch/lookup.rs, `is_rate_allowed`) -/

/-- `utils::config::Rate`: `requests` per `period` (seconds). -/
structure Rate where
  requests : Nat
  period : Nat
deriving DecidableEq

/-- `LookupStore::is_rate_allowed`: compute the active bucket
`now / period`, its end `(now / period) * period + period` and the bucket
key `key ++ be_bytes(bucket)`.  A hard check (`soft_check = false`)
increments the bucket counter with the bucket-end TTL; since the KV
backend's increment returns 0, it re-reads the counter.  A soft check
reads the counter and adds 1 without writing.  Allowed while
`requests <= rate.requests`. -/
def LookupStore.is_rate_allowed (s : LookupStore) (key : Bytes) (rate : Rate)
    (soft_check : Bool) (now : Nat) : Except StoreError (Option Nat × LookupStore) :=
  let range_start := now / rate.period
  let range_end := range_start * rate.period + rate.period
  let expires_in := range_end - now
  let bucket := key ++ beBytes range_start
  let verdict := fun (requests : Int) (s' : LookupStore) =>
    if requests ≤ (rate.requests : Int) then Except.ok ((none : Option Nat), s')
    else Except.ok (some expires_in, s')
  if soft_check = false then
    match LookupStore.counter_incr s bucket 1 (some expires_in) now with
    | .error e => .error e
    | .ok (requests, s1) =>
      if requests > 0 then verdict requests s1
      else
        match LookupStore.counter_get s1 bucket with
        | .error e => .error e
        | .ok (requests2, s2) => verdict requests2 s2
  else
    match LookupStore.counter_get s bucket with
    | .error e => .error e
    | .ok (requests, s1) => verdict (requests + 1) s1

/-! ## Fail2ban blocking (dispatch/blocked.rs) -/

/-- `utils::config::ConfigKey`. -/
structure ConfigKey where
  key : String
  value : String
deriving DecidableEq

/-- `BLOCKED_IP_KEY`. -/
def BLOCKED_IP_KEY : String := "server.security.blocked-networks"

/-- `BlockedIps` (addresses modelled by their display string; CIDR
network list and its atomic flag are not needed by the blocking path). -/
structure BlockedIps where
  ip_addresses : List String
  limiter_rate : Option Rate
  store : LookupStore
deriving DecidableEq

/-- String to bytes (`str::as_bytes`, faithful on ASCII). -/
def strBytes (s : String) : Bytes :=
  s.data.map Char.toNat

/-- Insert the address into the in-memory blocked set and produce the
`ConfigKey` for it (the taken branch of `is_fail2banned`). -/
def BlockedIps.block (b : BlockedIps) (ip : String) : Option ConfigKey × BlockedIps :=
  (some { key := BLOCKED_IP_KEY ++ "." ++ ip, value := "" },
   { b with ip_addresses := b.ip_addresses.insert ip })

/-- `BlockedIps::is_fail2banned`: with a configured fail2ban rate,
evaluate `is_allowed` as the conjunction of a hard per-address check and
a hard per-login check; `&&` short-circuits, so the login check only runs
when the address check allowed, and a failed store call counts as not
allowed (`unwrap_or(false)`).  When `is_allowed` is false the address is
blocked. -/
def BlockedIps.is_fail2banned (b : BlockedIps) (ip : String) (login : String)
    (now : Nat) : Option ConfigKey × BlockedIps :=
  match b.limiter_rate with
  | none => (none, b)
  | some rate =>
    match b.store.is_rate_allowed (strBytes ("b:" ++ ip)) rate false now with
    | .ok (none, s1) =>
      match (LookupStore.is_rate_allowed s1 (strBytes ("b:" ++ login)) rate false now) with
      | .ok (none, s2) => (none, { b with store := s2 })
      | .ok (some _, s2) => BlockedIps.block { b with store := s2 } ip
      | .error _ => BlockedIps.block { b with store := s1 } ip
    | .ok (some _, s1) => BlockedIps.block { b with store := s1 } ip
    | .error _ => BlockedIps.block b ip

/-- `BlockedIps::is_blocked` (exact-address part; the network part needs
the CIDR list, which the blocking path never writes). -/
def BlockedIps.is_blocked (b : BlockedIps) (ip : String) : Bool :=
  b.ip_addresses.contains ip

/-- Whether a rate-check result came back as allowed
(`.map(|v| v.is_none()).unwrap_or(false)`). -/
def checkAllowed (r : Except StoreError (Option Nat × LookupStore)) : Bool :=
  match r with
  | .ok (none, _) => true
  | .ok (some _, _) => false
  | .error _ => false

/-! ## Iterated rate-limiter calls -/

/-- Run one hard (`soft_check = false`) rate check at each time in the
list, sequentially threading the store state. -/
def runHard (key : Bytes) (rate : Rate) : List Nat → LookupStore → LookupStore
  | [], s => s
  | t :: ts, s =>
    runHard key rate ts (stateAfter s (LookupStore.is_rate_allowed s key rate false t))

/-- Run `n` soft (`soft_check = true`) rate checks at the same time,
sequentially threading the store state. -/
def runSoft (key : Bytes) (rate : Rate) (now : Nat) : Nat → LookupStore → LookupStore
  | 0, s => s
  | n + 1, s =>
    runSoft key rate now n (stateAfter s (LookupStore.is_rate_allowed s key rate true now))

/-- The bucket key for bucket id `B`. -/
def bucketKey (key : Bytes) (B : Nat) : Bytes := key ++ beBytes B

/-- The counter value a KV-variant store holds for a bucket (0 elsewhere). -/
def counterOf (s : LookupStore) (b : Bytes) : Int :=
  match s with
  | .store st => (alookup st.counters b).getD 0
  | _ => 0

/-- The KV state after one hard rate check at time `t`: counter expiry of
the active bucket is set to the bucket end, and the bucket counter grows
by one. -/
def incrState (st : StoreState) (key : Bytes) (rate : Rate) (t : Nat) : StoreState :=
  let B := t / rate.period
  let bkt := bucketKey key B
  let st1 := { st with
    counterExpiry := aset st.counterExpiry bkt (t + (B * rate.period + rate.period - t)) }
  { st1 with counters := aset st1.counters bkt ((alookup st1.counters bkt).getD 0 + 1) }


/-! ## TLS report data model (smtp/src/reporting/tls.rs) -/

/-- `store::write::ReportEvent`: key fields of one accumulated event. -/
structure ReportEvent where
  due : Nat
  policy_hash : Nat
  seq_id : Nat
  domain : String
deriving DecidableEq

/-- `mail_auth::report::tlsrpt::FailureDetails`: the failure payload,
abstracted to its identifying detail plus the session count field the
aggregator overwrites. -/
structure FailureDetails where
  detail : String
  failed_session_count : Nat
deriving DecidableEq

/-- `PolicyDetails`, abstracted to the policy domain. -/
structure PolicyDetails where
  policy_domain : String
deriving DecidableEq

/-- `Summary` of one aggregated policy. -/
structure Summary where
  total_success : Nat
  total_failure : Nat
deriving DecidableEq

/-- `Policy`: one aggregated entry of the final report. -/
structure TlsPolicy where
  policy : PolicyDetails
  summary : Summary
  failure_details : List FailureDetails
deriving DecidableEq

/-- `mta_sts::ReportUri`: an HTTP endpoint or a mailbox address. -/
inductive ReportUri where
  | http (uri : String)
  | mail (addr : String)
deriving DecidableEq

/-- `TlsFormat`: the stored group header (recipients + policy metadata). -/
structure TlsFormat where
  rua : List ReportUri
  policy : PolicyDetails
  records : List (Option FailureDetails)
deriving DecidableEq

/-- Modelled from the spec: `SerializedSize` (reporting/mod.rs, outside
src/) tracks the cumulative serialized size against a configured maximum;
serializing into it succeeds while the total stays within the cap and
fails (without consuming) once a write would push the total past it. -/
structure SerializedSize where
  consumed : Nat
  max : Nat
deriving DecidableEq

/-- One serialization attempt against the size budget. -/
def SerializedSize.serialize (ss : SerializedSize) (sz : Nat) : Bool × SerializedSize :=
  if ss.consumed + sz ≤ ss.max then (true, { ss with consumed := ss.consumed + sz })
  else (false, ss)

/-- Serialized-size estimates for the modelled objects (abstracting
`serde_json` byte counts). -/
structure SizeModel where
  shellSize : Nat
  tlsSize : TlsFormat → Nat
  fdSize : FailureDetails → Nat

/-- State of the dedup-while-scanning loop over one group's events
(the `iterate` closure of `generate_tls_report`). -/
structure DedupState where
  record_map : List (FailureDetails × Nat)
  total_success : Nat
  total_failure : Nat
  ss : SerializedSize
  processed : Nat
  stopped : Bool
deriving DecidableEq

/-- The dedup loop: a failure payload already in the map bumps its count;
a new payload is admitted only if it still serializes within the budget,
otherwise the scan stops (`Ok(false)`); a success sentinel (`None`
payload) bumps the success counter. -/
def dedupLoop (szm : SizeModel) : List (Option FailureDetails) → DedupState → DedupState
  | [], st => st
  | rec :: rest, st =>
    match rec with
    | none =>
      dedupLoop szm rest
        { st with total_success := st.total_success + 1, processed := st.processed + 1 }
    | some fd =>
      match alookup st.record_map fd with
      | some c =>
        dedupLoop szm rest
          { st with record_map := aset st.record_map fd (c + 1),
                    total_failure := st.total_failure + 1, processed := st.processed + 1 }
      | none =>
        match st.ss.serialize (szm.fdSize fd) with
        | (true, ss') =>
          dedupLoop szm rest
            { st with record_map := aset st.record_map fd 1,
                      total_failure := st.total_failure + 1, ss := ss',
                      processed := st.processed + 1 }
        | (false, ss') => { st with ss := ss', stopped := true }

/-- Outcome of one HTTP delivery attempt (`reqwest` client build failure,
success status, non-success status, or transport error). -/
inductive HttpResult where
  | buildFail
  | success
  | failStatus
  | netError
deriving DecidableEq

/-- Externally visible effects of `generate_tls_report`: an HTTP POST of
the compressed report, the single composed mail submission, and the
`delete_tls_report` cleanup call. -/
inductive RptAction where
  | httpPost (uri : String)
  | sendMail (rcpts : List String)
  | cleanup
deriving DecidableEq

/-- Which return path `generate_tls_report` took. -/
inductive GenOutcome where
  | panicked
  | emptyReport
  | gzipFail
  | httpDelivered (uri : String)
  | mailed
  | noRecipients
deriving DecidableEq

/-- Environment of one `generate_tls_report` run: resolved size cap,
size estimates, the data-store reads (header fetch, ordered group scan),
the HTTP responses and the gzip outcome. -/
structure GenEnv where
  maxSize : Nat
  szm : SizeModel
  header : ReportEvent → Except StoreError (Option TlsFormat)
  recordsOf : ReportEvent → List (Option FailureDetails)
  httpResp : String → HttpResult
  gzipOk : Bool

/-- The aggregation loop over the due events: fetch each group header
(read errors and missing headers are logged and skipped), serialize it
against the budget, dedup-scan the group's stored events, push the
aggregated policy and adopt the header's recipient list. -/
def aggregateEvents (env : GenEnv) :
    List ReportEvent → SerializedSize → List TlsPolicy → List ReportUri →
    List TlsPolicy × List ReportUri × SerializedSize
  | [], ss, pols, rua => (pols, rua, ss)
  | e :: rest, ss, pols, rua =>
    match env.header e with
    | .error _ => aggregateEvents env rest ss pols rua
    | .ok none => aggregateEvents env rest ss pols rua
    | .ok (some tls) =>
      let ss1 := (ss.serialize (env.szm.tlsSize tls)).2
      let d := dedupLoop env.szm (env.recordsOf e)
        { record_map := [], total_success := 0, total_failure := 0,
          ss := ss1, processed := 0, stopped := false }
      let pol : TlsPolicy :=
        { policy := tls.policy,
          summary := { total_success := d.total_success, total_failure := d.total_failure },
          failure_details :=
            d.record_map.map (fun rc => { rc.1 with failed_session_count := rc.2 }) }
      aggregateEvents env rest d.ss (pols ++ [pol]) tls.rua

/-- The HTTP delivery loop over the recipient list: HTTP recipients are
tried in order (a successful status stops delivery), mailbox recipients
are collected for the mail fallback. -/
def httpDeliver (env : GenEnv) :
    List ReportUri → List RptAction → List String → List RptAction × List String × Option String
  | [], tr, rcpts => (tr, rcpts, none)
  | .http uri :: rest, tr, rcpts =>
    match env.httpResp uri with
    | .buildFail => httpDeliver env rest tr rcpts
    | .success => (tr ++ [RptAction.httpPost uri], rcpts, some uri)
    | .failStatus => httpDeliver env rest (tr ++ [RptAction.httpPost uri]) rcpts
    | .netError => httpDeliver env rest (tr ++ [RptAction.httpPost uri]) rcpts
  | .mail addr :: rest, tr, rcpts => httpDeliver env rest tr (rcpts ++ [addr])

/-- Delivery and cleanup tail of `generate_tls_report`: the empty-report
anomaly and the compression failure clean up and return; otherwise HTTP
delivery is attempted, falling back to composing one message to all
mailbox recipients; cleanup runs on every path. -/
def deliverReport (env : GenEnv) (policies : List TlsPolicy) (rua : List ReportUri) :
    List RptAction × GenOutcome :=
  if policies.isEmpty then ([RptAction.cleanup], .emptyReport)
  else if env.gzipOk = false then ([RptAction.cleanup], .gzipFail)
  else
    match httpDeliver env rua [] [] with
    | (tr, _, some uri) => (tr ++ [RptAction.cleanup], .httpDelivered uri)
    | (tr, rcpts, none) =>
      match rcpts with
      | [] => (tr ++ [RptAction.cleanup], .noRecipients)
      | r :: rs => (tr ++ [RptAction.sendMail (r :: rs), RptAction.cleanup], .mailed)

/-- `SMTP::generate_tls_report`: extract `(seq_id, due, policy_hash)`
from the first event (an `unwrap` that panics on an empty list), build
the report shell and serialize it against the size budget, aggregate all
groups, then deliver and clean up. -/
def generate_tls_report (env : GenEnv) (events : List ReportEvent) :
    List RptAction × GenOutcome :=
  match events with
  | [] => ([], .panicked)
  | _ :: _ =>
    let ss0 : SerializedSize := { consumed := 0, max := env.maxSize }
    let ss1 := (ss0.serialize env.szm.shellSize).2
    let agg := aggregateEvents env events ss1 [] []
    deliverReport env agg.1 agg.2.1

/-- Count the occurrences of one action in a trace. -/
def countAct (tr : List RptAction) (a : RptAction) : Nat :=
  (tr.filter (fun x => decide (x = a))).length

/-- Count the occurrences of one record shape in a scan. -/
def countOcc (records : List (Option FailureDetails)) (x : Option FailureDetails) : Nat :=
  (records.filter (fun r => decide (r = x))).length

/-- The count a record map holds for a payload (0 when absent). -/
def mapCount (m : List (FailureDetails × Nat)) (fd : FailureDetails) : Nat :=
  (alookup m fd).getD 0

/-! ## Queue store and report cleanup (delete_tls_report) -/

/-- The queue-class keys of the data store used by the TLS reporting
pipeline: group headers, per-event entries and the per-group lock. -/
inductive QueueKey where
  | tlsReportHeader (e : ReportEvent)
  | tlsReportEvent (e : ReportEvent)
  | tlsLock (e : ReportEvent)
deriving DecidableEq

/-- The data store restricted to the queue keys the cleanup touches. -/
abbrev QueueStore := List (QueueKey × Bytes)

/-- Modelled from the spec: `QueueClass::tls_lock` (store/write, outside
src/) derives the companion lock key of an event's group. -/
def tls_lock (e : ReportEvent) : QueueKey :=
  .tlsLock { e with seq_id := 0 }

/-- Whether a queue key lies in the deletion range
`[TlsReportEvent(group, seq 0), TlsReportEvent(group, seq u64::MAX)]`;
per the key codec (spec section 4.1) the range covers exactly the group's
events. -/
def inEventRange (g : ReportEvent) (k : QueueKey) : Bool :=
  match k with
  | .tlsReportEvent e =>
    decide (e.due = g.due ∧ e.policy_hash = g.policy_hash ∧ e.domain = g.domain ∧
            e.seq_id ≤ u64MAX)
  | _ => false

/-- `Store::delete_range` over one group's event keys. -/
def delete_range (st : QueueStore) (g : ReportEvent) : QueueStore :=
  st.filter (fun kv => !(inEventRange g kv.1))

/-- Apply a batch of `ValueOp::Clear` operations. -/
def applyClears (st : QueueStore) (batch : List QueueKey) : QueueStore :=
  batch.foldl (fun s k => s.filter (fun kv => decide (kv.1 ≠ k))) st

/-- The loop body of `delete_tls_report`: for each event, range-delete
the group's entries immediately, queue a clear of the lock (first event
only) and of the group header. -/
def deleteGo : List ReportEvent → Nat → QueueStore → List QueueKey → QueueStore × List QueueKey
  | [], _, st, batch => (st, batch)
  | e :: rest, pos, st, batch =>
    let st' := delete_range st e
    let batch' := (if pos = 0 then batch ++ [tls_lock e] else batch) ++ [QueueKey.tlsReportHeader e]
    deleteGo rest (pos + 1) st' batch'

/-- `SMTP::delete_tls_report`: range-delete every group's events, then
clear the first group's lock and every group header in one final batch. -/
def delete_tls_report (st : QueueStore) (events : List ReportEvent) : QueueStore :=
  applyClears (deleteGo events 0 st []).1 (deleteGo events 0 st []).2

/-- The batch of clears `delete_tls_report` accumulates. -/
def clearsOf : List ReportEvent → Nat → List QueueKey
  | [], _ => []
  | e :: rest, pos =>
    (if pos = 0 then [tls_lock e] else []) ++ [QueueKey.tlsReportHeader e] ++ clearsOf rest (pos + 1)

/-- The overall deletion predicate of `delete_tls_report`: a key is
removed when it lies in some group's event range or is one of the queued
clears. -/
def deletePred (events : List ReportEvent) (k : QueueKey) : Bool :=
  events.any (fun e => inEventRange e k) || (clearsOf events 0).any (fun c => decide (k = c))

/-! ## Association list lemmas -/

theorem alookup_aset_self {κ ν : Type} [DecidableEq κ] (l : List (κ × ν)) (k : κ) (v : ν) :
    alookup (aset l k v) k = some v := by
  induction l with
  | nil => simp [aset, alookup]
  | cons p rest ih =>
    by_cases h : p.1 = k
    · simp [aset, h, alookup]
    · simp [aset, h, alookup, ih]

theorem alookup_aset_ne {κ ν : Type} [DecidableEq κ] (l : List (κ × ν)) (k k' : κ) (v : ν)
    (h : k ≠ k') : alookup (aset l k v) k' = alookup l k' := by
  induction l with
  | nil => simp [aset, alookup, h]
  | cons p rest ih =>
    by_cases hp : p.1 = k
    · simp [aset, hp, alookup, h]
    · simp only [aset, hp, if_false, alookup]
      by_cases hp' : p.1 = k'
      · simp [hp']
      · simp [hp', ih]


theorem rate_hard_step (st : StoreState) (key : Bytes) (rate : Rate) (t : Nat) :
    LookupStore.is_rate_allowed (.store st) key rate false t =
      .ok ((if counterOf (.store st) (bucketKey key (t / rate.period)) + 1 ≤ (rate.requests : Int)
            then none
            else some ((t / rate.period) * rate.period + rate.period - t)),
           .store (incrState st key rate t)) := by
  simp only [LookupStore.is_rate_allowed, LookupStore.counter_incr, incrState, counterOf,
    bucketKey]
  simp [LookupStore.counter_get, alookup_aset_self]
  split <;> rfl

theorem rate_soft_step (st : StoreState) (key : Bytes) (rate : Rate) (t : Nat) :
    LookupStore.is_rate_allowed (.store st) key rate true t =
      .ok ((if counterOf (.store st) (bucketKey key (t / rate.period)) + 1 ≤ (rate.requests : Int)
            then none
            else some ((t / rate.period) * rate.period + rate.period - t)),
           .store st) := by
  simp [LookupStore.is_rate_allowed, LookupStore.counter_get, counterOf, bucketKey]
  split <;> rfl

theorem runHard_counter (key : Bytes) (rate : Rate) (B : Nat) :
    ∀ (ts : List Nat) (st : StoreState), (∀ t ∈ ts, t / rate.period = B) →
      ∃ st', runHard key rate ts (.store st) = .store st' ∧
        counterOf (.store st') (bucketKey key B) =
          counterOf (.store st) (bucketKey key B) + ts.length := by
  intro ts
  induction ts with
  | nil => intro st _; exact ⟨st, rfl, by simp [runHard]⟩
  | cons t ts ih =>
    intro st hts
    have hB : t / rate.period = B := hts t (by simp)
    have hstep := rate_hard_step st key rate t
    obtain ⟨st', h1, h2⟩ := ih (incrState st key rate t) (fun u hu => hts u (by simp [hu]))
    refine ⟨st', ?_, ?_⟩
    · simp [runHard, hstep, stateAfter, h1]
    · have hc : counterOf (.store (incrState st key rate t)) (bucketKey key B) =
          counterOf (.store st) (bucketKey key B) + 1 := by
        simp [incrState, counterOf, hB, alookup_aset_self]
      rw [h2, hc]
      simp only [List.length_cons]
      push_cast
      ring

/-! ## Claim theorems: rate limiter and lookup store -/

/-- Claim C3: with rate (N requests, period P), a fixed key and
sequential hard calls inside one bucket (every call time maps to the same
bucket id, and the bucket counter starts untouched), the N-th
`is_rate_allowed` call with `soft_check = false` returns `Ok(None)` and
the (N+1)-th returns `Ok(Some(period_end - now))` with
`period_end = (now / P) * P + P`. -/
theorem C3_rate_limit_threshold (key : Bytes) (rate : Rate) (st : StoreState)
    (B : Nat) (ts : List Nat) (now : Nat)
    (hts : ∀ t ∈ ts, t / rate.period = B) (hnow : now / rate.period = B)
    (hc : counterOf (.store st) (bucketKey key B) = 0) :
    (ts.length + 1 ≤ rate.requests →
      Except.map Prod.fst
        (LookupStore.is_rate_allowed (runHard key rate ts (.store st)) key rate false now) =
        .ok none) ∧
    (rate.requests ≤ ts.length →
      Except.map Prod.fst
        (LookupStore.is_rate_allowed (runHard key rate ts (.store st)) key rate false now) =
        .ok (some ((now / rate.period) * rate.period + rate.period - now))) := by
  obtain ⟨st', h1, h2⟩ := runHard_counter key rate B ts st hts
  rw [h1, hc] at *
  have hstep := rate_hard_step st' key rate now
  rw [hnow] at hstep
  rw [h1, hstep]
  constructor
  · intro hle
    have hcond : counterOf (.store st') (bucketKey key B) + 1 ≤ (rate.requests : Int) := by
      rw [h2]; omega
    simp [hcond, Except.map]
  · intro hge
    have hcond : ¬ (counterOf (.store st') (bucketKey key B) + 1 ≤ (rate.requests : Int)) := by
      rw [h2]; omega
    simp [hcond, Except.map, hnow]

/-- Witness for C3 at rate (2, 10): the 2nd call is allowed, the 3rd is
denied with 5 seconds left in the bucket ending at 10. -/
theorem C3_witness :
    Except.map Prod.fst
      (LookupStore.is_rate_allowed (runHard [1] ⟨2, 10⟩ [3] (.store ⟨[], [], []⟩))
        [1] ⟨2, 10⟩ false 5) = .ok none ∧
    Except.map Prod.fst
      (LookupStore.is_rate_allowed (runHard [1] ⟨2, 10⟩ [3, 7] (.store ⟨[], [], []⟩))
        [1] ⟨2, 10⟩ false 5) = .ok (some 5) := by
  constructor
  · exact (C3_rate_limit_threshold [1] ⟨2, 10⟩ ⟨[], [], []⟩ 0 [3] 5
      (by decide) (by decide) (by decide)).1 (by decide)
  · have h := (C3_rate_limit_threshold [1] ⟨2, 10⟩ ⟨[], [], []⟩ 0 [3, 7] 5
      (by decide) (by decide) (by decide)).2 (by decide)
    simpa using h

/-- Claim C4: a soft check (`soft_check = true`) never mutates stored
state: any number of soft checks leaves the store exactly as it was, and
a hard check issued afterwards returns exactly what it would have
returned without them. -/
theorem C4_soft_check_no_mutation (s : LookupStore) (key : Bytes) (rate : Rate)
    (now : Nat) (n : Nat) :
    runSoft key rate now n s = s ∧
    LookupStore.is_rate_allowed (runSoft key rate now n s) key rate false now =
      LookupStore.is_rate_allowed s key rate false now := by
  have hstep : ∀ s' : LookupStore,
      stateAfter s' (LookupStore.is_rate_allowed s' key rate true now) = s' := by
    intro s'
    cases s' with
    | store st => rw [rate_soft_step]; rfl
    | memory m => simp [LookupStore.is_rate_allowed, LookupStore.counter_get, stateAfter]
    | query q => simp [LookupStore.is_rate_allowed, LookupStore.counter_get, stateAfter]
  have hiter : runSoft key rate now n s = s := by
    induction n with
    | zero => rfl
    | succ k ih => rw [runSoft, hstep, ih]
  exact ⟨hiter, by rw [hiter]⟩

/-- Claim C5: on the transactional-KV variant a read behaves as absent as
soon as the stored expiry has passed, whether or not the sweeper ran; and
an entry written without TTL carries expiry `u64::MAX`, so every read at
a clock value below `u64::MAX` still returns it. -/
theorem C5_lazy_expiry :
    (∀ (st : StoreState) (key : Bytes) (e : Nat) (v : Bytes) (now : Nat),
      alookup st.lookupKeys key = some (e, v) → e ≤ now →
      LookupStore.key_get (.store st) key now = .ok (none, .store st)) ∧
    (∀ (st : StoreState) (key : Bytes) (v : Bytes) (now now' : Nat),
      now' < u64MAX →
      Except.map Prod.fst
        (LookupStore.key_get
          (stateAfter (.store st) (LookupStore.key_set (.store st) key v none now))
          key now') = .ok (some (.bytes v))) := by
  constructor
  · intro st key e v now hl he
    simp [LookupStore.key_get, hl, Nat.not_lt.mpr he]
  · intro st key v now now' h
    simp [LookupStore.key_set, stateAfter, LookupStore.key_get, alookup_aset_self, h,
      Except.map]

/-- Witness for C5: a key stored with expiry 5 reads as absent at time
10; a key written without TTL at time 0 still reads back at time 999. -/
theorem C5_witness :
    LookupStore.key_get (.store ⟨[([0], (5, [9]))], [], []⟩) [0] 10 =
      .ok (none, .store ⟨[([0], (5, [9]))], [], []⟩) ∧
    Except.map Prod.fst
      (LookupStore.key_get
        (stateAfter (.store ⟨[], [], []⟩)
          (LookupStore.key_set (.store ⟨[], [], []⟩) [0] [1, 2] none 0))
        [0] 999) = .ok (some (.bytes [1, 2])) := by
  constructor
  · exact C5_lazy_expiry.1 ⟨[([0], (5, [9]))], [], []⟩ [0] 5 [9] 10 (by decide) (by decide)
  · exact C5_lazy_expiry.2 ⟨[], [], []⟩ [0] [1, 2] 0 999 (by decide)

/-- Claim C9 counterexample: `purge_expired` on the memory variant is a
silent no-op returning `Ok(())`, not a distinguishable
unsupported-operation error. -/
theorem C9_counterexample :
    LookupStore.purge_expired (.memory (.list [])) 17 = .ok ((), .memory (.list [])) := rfl

/-- Claim C9 (amended): `key_set`, `key_delete`, `counter_incr`,
`counter_get` and `counter_delete` on the memory variant, and the counter
operations and `key_delete` on the query variant, fail with a
distinguishable unsupported-operation internal error (leaving state
untouched); `purge_expired`, by contrast, silently no-ops with `Ok(())`
on both non-transactional variants. -/
theorem C9_unsupported_ops :
    (∀ (m : MemoryStore) (k v : Bytes) (e : Option Nat) (now : Nat),
      LookupStore.key_set (.memory m) k v e now =
        .error (.internal ("This store does not support key_set"))) ∧
    (∀ (m : MemoryStore) (k : Bytes),
      LookupStore.key_delete (.memory m) k =
        .error (.internal ("This store does not support key_set"))) ∧
    (∀ (q : QueryStore) (k : Bytes),
      LookupStore.key_delete (.query q) k =
        .error (.internal ("This store does not support key_set"))) ∧
    (∀ (m : MemoryStore) (k : Bytes) (d : Int) (e : Option Nat) (now : Nat),
      LookupStore.counter_incr (.memory m) k d e now =
        .error (.internal ("This store does not support counter_incr"))) ∧
    (∀ (q : QueryStore) (k : Bytes) (d : Int) (e : Option Nat) (now : Nat),
      LookupStore.counter_incr (.query q) k d e now =
        .error (.internal ("This store does not support counter_incr"))) ∧
    (∀ (m : MemoryStore) (k : Bytes),
      LookupStore.counter_get (.memory m) k =
        .error (.internal ("This store does not support counter_get"))) ∧
    (∀ (q : QueryStore) (k : Bytes),
      LookupStore.counter_get (.query q) k =
        .error (.internal ("This store does not support counter_get"))) ∧
    (∀ (m : MemoryStore) (k : Bytes),
      LookupStore.counter_delete (.memory m) k =
        .error (.internal ("This store does not support key_set"))) ∧
    (∀ (q : QueryStore) (k : Bytes),
      LookupStore.counter_delete (.query q) k =
        .error (.internal ("This store does not support key_set"))) ∧
    (∀ (m : MemoryStore) (now : Nat),
      LookupStore.purge_expired (.memory m) now = .ok ((), .memory m)) ∧
    (∀ (q : QueryStore) (now : Nat),
      LookupStore.purge_expired (.query q) now = .ok ((), .query q)) := by
  refine ⟨?_, ?_, ?_, ?_, ?_, ?_, ?_, ?_, ?_, ?_, ?_⟩ <;> intros <;> rfl

/-- Claim C1 counterexample: with fail2ban rate (1, 1) and the
per-address bucket already at the limit, `is_fail2banned` blocks the
address and returns `Some(ConfigKey)` even though the per-login check is
still within its limit (its counter is untouched), refuting "blocked only
when both checks are simultaneously over threshold". -/
theorem C1_counterexample :
    ((BlockedIps.is_fail2banned
        ⟨[], some ⟨1, 1⟩, .store ⟨[], [(strBytes ("b:" ++ "1.2.3.4") ++ beBytes 0, (1 : Int))], []⟩⟩
        "1.2.3.4" "alice" 0).1 =
      some ⟨BLOCKED_IP_KEY ++ "." ++ "1.2.3.4", ""⟩) ∧
    checkAllowed
      (LookupStore.is_rate_allowed
        (.store ⟨[], [(strBytes ("b:" ++ "1.2.3.4") ++ beBytes 0, (1 : Int))], []⟩)
        (strBytes ("b:" ++ "alice")) ⟨1, 1⟩ false 0) = true := by decide

/-- Claim C1 (amended): with a configured fail2ban rate,
`is_fail2banned` blocks the address (inserting it into the in-memory
blocked set and returning `Some(ConfigKey)`) as soon as AT LEAST ONE of
the two hard rate checks denies or errors — the per-address check first
and, only when it allows, the per-login check; `None` is returned exactly
when both checks pass. -/
theorem C1_blocked_on_any_failed_check (b : BlockedIps) (rate : Rate)
    (ip login : String) (now : Nat) (hrate : b.limiter_rate = some rate) :
    (checkAllowed (LookupStore.is_rate_allowed b.store (strBytes ("b:" ++ ip)) rate false now) =
        false →
      (b.is_fail2banned ip login now).1 = some ⟨BLOCKED_IP_KEY ++ "." ++ ip, ""⟩ ∧
      ip ∈ (b.is_fail2banned ip login now).2.ip_addresses) ∧
    (checkAllowed (LookupStore.is_rate_allowed b.store (strBytes ("b:" ++ ip)) rate false now) =
        true →
      checkAllowed (LookupStore.is_rate_allowed
          (stateAfter b.store
            (LookupStore.is_rate_allowed b.store (strBytes ("b:" ++ ip)) rate false now))
          (strBytes ("b:" ++ login)) rate false now) = false →
      (b.is_fail2banned ip login now).1 = some ⟨BLOCKED_IP_KEY ++ "." ++ ip, ""⟩ ∧
      ip ∈ (b.is_fail2banned ip login now).2.ip_addresses) ∧
    (checkAllowed (LookupStore.is_rate_allowed b.store (strBytes ("b:" ++ ip)) rate false now) =
        true →
      checkAllowed (LookupStore.is_rate_allowed
          (stateAfter b.store
            (LookupStore.is_rate_allowed b.store (strBytes ("b:" ++ ip)) rate false now))
          (strBytes ("b:" ++ login)) rate false now) = true →
      (b.is_fail2banned ip login now).1 = none) := by
  cases hip : LookupStore.is_rate_allowed b.store (strBytes ("b:" ++ ip)) rate false now with
  | error e =>
    refine ⟨fun _ => ?_, fun h1 _ => ?_, fun h1 _ => ?_⟩
    · simp [BlockedIps.is_fail2banned, hrate, hip, BlockedIps.block, List.mem_insert_self]
    · simp [checkAllowed] at h1
    · simp [checkAllowed] at h1
  | ok p =>
    obtain ⟨v, s1⟩ := p
    cases v with
    | some w =>
      refine ⟨fun _ => ?_, fun h1 _ => ?_, fun h1 _ => ?_⟩
      · simp [BlockedIps.is_fail2banned, hrate, hip, BlockedIps.block, List.mem_insert_self]
      · simp [checkAllowed] at h1
      · simp [checkAllowed] at h1
    | none =>
      cases hlogin : LookupStore.is_rate_allowed s1 (strBytes ("b:" ++ login)) rate false now with
      | error e2 =>
        refine ⟨fun h1 => ?_, fun _ _ => ?_, fun _ h2 => ?_⟩
        · simp [checkAllowed] at h1
        · simp [BlockedIps.is_fail2banned, hrate, hip, hlogin, BlockedIps.block,
            List.mem_insert_self]
        · simp [stateAfter, hlogin, checkAllowed] at h2
      | ok q =>
        obtain ⟨w, s2⟩ := q
        cases w with
        | some u =>
          refine ⟨fun h1 => ?_, fun _ _ => ?_, fun _ h2 => ?_⟩
          · simp [checkAllowed] at h1
          · simp [BlockedIps.is_fail2banned, hrate, hip, hlogin, BlockedIps.block,
              List.mem_insert_self]
          · simp [stateAfter, hlogin, checkAllowed] at h2
        | none =>
          refine ⟨fun h1 => ?_, fun _ h2 => ?_, fun _ _ => ?_⟩
          · simp [checkAllowed] at h1
          · simp [stateAfter, hlogin, checkAllowed] at h2
          · simp [BlockedIps.is_fail2banned, hrate, hip, hlogin]

/-- Witness for the amended C1: a concrete state where the per-address
check is over threshold, so the address is blocked. -/
theorem C1_witness :
    (BlockedIps.is_fail2banned
        ⟨[], some ⟨1, 1⟩, .store ⟨[], [(strBytes ("b:" ++ "9.9.9.9") ++ beBytes 0, (1 : Int))], []⟩⟩
        "9.9.9.9" "bob" 0).1 = some ⟨BLOCKED_IP_KEY ++ "." ++ "9.9.9.9", ""⟩ ∧
    "9.9.9.9" ∈ (BlockedIps.is_fail2banned
        ⟨[], some ⟨1, 1⟩, .store ⟨[], [(strBytes ("b:" ++ "9.9.9.9") ++ beBytes 0, (1 : Int))], []⟩⟩
        "9.9.9.9" "bob" 0).2.ip_addresses :=
  (C1_blocked_on_any_failed_check _ ⟨1, 1⟩ "9.9.9.9" "bob" 0 rfl).1 (by decide)

/-! ## Claim theorems: report generation, delivery and cleanup -/

theorem countAct_append_other (tr : List RptAction) (a b : RptAction) (h : a ≠ b) :
    countAct (tr ++ [a]) b = countAct tr b := by
  simp [countAct, List.filter_append, List.filter, h]

theorem countAct_append_self (tr : List RptAction) (b : RptAction) :
    countAct (tr ++ [b]) b = countAct tr b + 1 := by
  simp [countAct, List.filter_append, List.filter]

theorem httpDeliver_cleanup_count (env : GenEnv) :
    ∀ (rua : List ReportUri) (tr : List RptAction) (rcpts : List String),
      countAct (httpDeliver env rua tr rcpts).1 RptAction.cleanup =
        countAct tr RptAction.cleanup := by
  intro rua
  induction rua with
  | nil => intro tr rcpts; rfl
  | cons u rest ih =>
    intro tr rcpts
    cases u with
    | http uri =>
      cases h : env.httpResp uri with
      | buildFail => simp [httpDeliver, h, ih]
      | success => simp [httpDeliver, h, countAct_append_other]
      | failStatus => simp [httpDeliver, h, ih, countAct_append_other]
      | netError => simp [httpDeliver, h, ih, countAct_append_other]
    | mail addr => simp [httpDeliver, ih]

theorem deliver_cleanup_once (env : GenEnv) (policies : List TlsPolicy) (rua : List ReportUri) :
    countAct (deliverReport env policies rua).1 RptAction.cleanup = 1 := by
  unfold deliverReport
  split
  · rfl
  · split
    · rfl
    · split
      · rename_i tr snd uri heq
        have htr : countAct tr RptAction.cleanup = 0 := by
          have hh := httpDeliver_cleanup_count env rua [] []
          rw [heq] at hh
          exact hh
        simp [countAct_append_self, htr]
      · rename_i tr rcpts heq
        split
        · have htr : countAct tr RptAction.cleanup = 0 := by
            have hh := httpDeliver_cleanup_count env rua [] []
            rw [heq] at hh
            exact hh
          simp [countAct_append_self, htr]
        · rename_i r rs
          have htr : countAct tr RptAction.cleanup = 0 := by
            have hh := httpDeliver_cleanup_count env rua [] []
            rw [heq] at hh
            exact hh
          have hsplit : tr ++ [RptAction.sendMail (r :: rs), RptAction.cleanup] =
              (tr ++ [RptAction.sendMail (r :: rs)]) ++ [RptAction.cleanup] := by
            simp
          rw [hsplit, countAct_append_self, countAct_append_other tr _ _ (by simp), htr]

theorem deliver_outcome_ne (env : GenEnv) (policies : List TlsPolicy) (rua : List ReportUri) :
    (deliverReport env policies rua).2 ≠ GenOutcome.panicked := by
  unfold deliverReport
  split
  · simp
  · split
    · simp
    · split
      · simp
      · split <;> simp

/-- Claim C2: for every non-empty events list, `generate_tls_report`
invokes the cleanup `delete_tls_report` exactly once on every execution
path; and in the concrete fallback scenario with one unreachable HTTP
recipient followed by one mailbox recipient, the trace is exactly: the
HTTP POST is attempted and fails, one message is composed to the mailbox
recipient, and cleanup runs once. -/
theorem C2_cleanup_exactly_once :
    (∀ (env : GenEnv) (events : List ReportEvent), events ≠ [] →
      countAct (generate_tls_report env events).1 RptAction.cleanup = 1) ∧
    (generate_tls_report
        { maxSize := 1000,
          szm := { shellSize := 1, tlsSize := fun _ => 1, fdSize := fun _ => 1 },
          header := fun _ => .ok (some
            { rua := [.http "https://rpt.example/tls", .mail "admin@example.org"],
              policy := { policy_domain := "example.org" }, records := [] }),
          recordsOf := fun _ => [some { detail := "cert-expired", failed_session_count := 0 }],
          httpResp := fun _ => .netError,
          gzipOk := true }
        [{ due := 10, policy_hash := 7, seq_id := 1, domain := "example.org" }]).1 =
      [RptAction.httpPost "https://rpt.example/tls",
       RptAction.sendMail ["admin@example.org"], RptAction.cleanup] := by
  constructor
  · intro env events h
    cases events with
    | nil => exact absurd rfl h
    | cons e es =>
      simp only [generate_tls_report]
      exact deliver_cleanup_once env _ _
  · rfl

/-- Witness for C2 at a concrete non-empty events list. -/
theorem C2_witness :
    countAct (generate_tls_report
        { maxSize := 0, szm := ⟨0, fun _ => 0, fun _ => 0⟩,
          header := fun _ => .ok none, recordsOf := fun _ => [],
          httpResp := fun _ => .netError, gzipOk := true }
        [⟨0, 0, 0, ""⟩]).1 RptAction.cleanup = 1 :=
  C2_cleanup_exactly_once.1 _ _ (by decide)

/-- Claim C10: `generate_tls_report` reaches the initial extraction of
`(seq_id, due, policy_hash)` from `events.first().unwrap()` and proceeds
exactly when the events list is non-empty; on the empty list that unwrap
panics. -/
theorem C10_nonempty_events_precondition (env : GenEnv) (events : List ReportEvent) :
    (generate_tls_report env events).2 = GenOutcome.panicked ↔ events = [] := by
  cases events with
  | nil => simp [generate_tls_report]
  | cons e es =>
    simp only [generate_tls_report]
    constructor
    · intro h
      exact absurd h (deliver_outcome_ne env _ _)
    · intro h
      cases h

/-! ## Dedup loop lemmas -/

theorem dedup_ss_le (szm : SizeModel) :
    ∀ (records : List (Option FailureDetails)) (st : DedupState),
      st.ss.consumed ≤ st.ss.max →
      (dedupLoop szm records st).ss.consumed ≤ (dedupLoop szm records st).ss.max ∧
      (dedupLoop szm records st).ss.max = st.ss.max := by
  intro records
  induction records with
  | nil => intro st h; exact ⟨h, rfl⟩
  | cons r rest ih =>
    intro st h
    cases r with
    | none => exact ih _ h
    | some fd =>
      cases hl : alookup st.record_map fd with
      | some c =>
        have hred : dedupLoop szm (some fd :: rest) st =
            dedupLoop szm rest
              { st with record_map := aset st.record_map fd (c + 1),
                        total_failure := st.total_failure + 1,
                        processed := st.processed + 1 } := by
          simp [dedupLoop, hl]
        rw [hred]
        exact ih _ h
      | none =>
        by_cases hsz : st.ss.consumed + szm.fdSize fd ≤ st.ss.max
        · have hred : dedupLoop szm (some fd :: rest) st =
              dedupLoop szm rest
                { st with record_map := aset st.record_map fd 1,
                          total_failure := st.total_failure + 1,
                          ss := { st.ss with consumed := st.ss.consumed + szm.fdSize fd },
                          processed := st.processed + 1 } := by
            simp [dedupLoop, hl, SerializedSize.serialize, hsz]
          rw [hred]
          exact ih _ (by simpa using hsz)
        · have hred : dedupLoop szm (some fd :: rest) st = { st with stopped := true } := by
            simp [dedupLoop, hl, SerializedSize.serialize, hsz]
          rw [hred]
          exact ⟨h, rfl⟩

theorem dedup_take (szm : SizeModel) :
    ∀ (records : List (Option FailureDetails)) (st : DedupState), st.stopped = false →
      ∃ k, k ≤ records.length ∧
        (dedupLoop szm records st).processed = st.processed + k ∧
        dedupLoop szm (records.take k) st =
          { dedupLoop szm records st with stopped := false } ∧
        ((dedupLoop szm records st).stopped = true → k < records.length) := by
  intro records
  induction records with
  | nil =>
    intro st h
    refine ⟨0, by simp, by simp [dedupLoop], ?_, by simp [dedupLoop, h]⟩
    show dedupLoop szm [] st = { dedupLoop szm [] st with stopped := false }
    cases st
    simp_all [dedupLoop]
  | cons r rest ih =>
    intro st h
    cases r with
    | none =>
      have hred : dedupLoop szm (none :: rest) st =
          dedupLoop szm rest
            { st with total_success := st.total_success + 1,
                      processed := st.processed + 1 } := rfl
      obtain ⟨k, hk1, hk2, hk3, hk4⟩ := ih
        { st with total_success := st.total_success + 1, processed := st.processed + 1 }
        (by simpa using h)
      refine ⟨k + 1, by simpa using hk1, ?_, ?_, ?_⟩
      · rw [hred, hk2]; simp; omega
      · rw [hred]
        have : (none :: rest).take (k + 1) = none :: rest.take k := rfl
        rw [this]
        exact hk3
      · intro hs
        rw [hred] at hs
        have := hk4 hs
        simp
        omega
    | some fd =>
      cases hl : alookup st.record_map fd with
      | some c =>
        have hred : dedupLoop szm (some fd :: rest) st =
            dedupLoop szm rest
              { st with record_map := aset st.record_map fd (c + 1),
                        total_failure := st.total_failure + 1,
                        processed := st.processed + 1 } := by
          simp [dedupLoop, hl]
        obtain ⟨k, hk1, hk2, hk3, hk4⟩ := ih
          { st with record_map := aset st.record_map fd (c + 1),
                    total_failure := st.total_failure + 1, processed := st.processed + 1 }
          (by simpa using h)
        refine ⟨k + 1, by simpa using hk1, ?_, ?_, ?_⟩
        · rw [hred, hk2]; simp; omega
        · rw [hred]
          have hts : (some fd :: rest).take (k + 1) = some fd :: rest.take k := rfl
          rw [hts]
          have hred2 : dedupLoop szm (some fd :: rest.take k) st =
              dedupLoop szm (rest.take k)
                { st with record_map := aset st.record_map fd (c + 1),
                          total_failure := st.total_failure + 1,
                          processed := st.processed + 1 } := by
            simp [dedupLoop, hl]
          rw [hred2]
          exact hk3
        · intro hs
          rw [hred] at hs
          have := hk4 hs
          simp
          omega
      | none =>
        by_cases hsz : st.ss.consumed + szm.fdSize fd ≤ st.ss.max
        · have hred : dedupLoop szm (some fd :: rest) st =
              dedupLoop szm rest
                { st with record_map := aset st.record_map fd 1,
                          total_failure := st.total_failure + 1,
                          ss := { st.ss with consumed := st.ss.consumed + szm.fdSize fd },
                          processed := st.processed + 1 } := by
            simp [dedupLoop, hl, SerializedSize.serialize, hsz]
          obtain ⟨k, hk1, hk2, hk3, hk4⟩ := ih
            { st with record_map := aset st.record_map fd 1,
                      total_failure := st.total_failure + 1,
                      ss := { st.ss with consumed := st.ss.consumed + szm.fdSize fd },
                      processed := st.processed + 1 }
            (by simpa using h)
          refine ⟨k + 1, by simpa using hk1, ?_, ?_, ?_⟩
          · rw [hred, hk2]; simp; omega
          · rw [hred]
            have hts : (some fd :: rest).take (k + 1) = some fd :: rest.take k := rfl
            rw [hts]
            have hred2 : dedupLoop szm (some fd :: rest.take k) st =
                dedupLoop szm (rest.take k)
                  { st with record_map := aset st.record_map fd 1,
                            total_failure := st.total_failure + 1,
                            ss := { st.ss with consumed := st.ss.consumed + szm.fdSize fd },
                            processed := st.processed + 1 } := by
              simp [dedupLoop, hl, SerializedSize.serialize, hsz]
            rw [hred2]
            exact hk3
          · intro hs
            rw [hred] at hs
            have := hk4 hs
            simp
            omega
        · have hred : dedupLoop szm (some fd :: rest) st = { st with stopped := true } := by
            simp [dedupLoop, hl, SerializedSize.serialize, hsz]
          refine ⟨0, by simp, by rw [hred]; simp, ?_, ?_⟩
          · rw [hred]
            show dedupLoop szm [] st = _
            cases st
            simp_all [dedupLoop]
          · intro _
            simp

/-- Claim C6: the dedup-while-scanning loop of `generate_tls_report`
charges each not-yet-seen failure payload against the serialized-size
budget (already debited for the report shell and group headers); the
cumulative size never exceeds the configured maximum, the events that
made it into the report are exactly a prefix of the group's events in
scan order, and whenever the loop stopped on an over-budget payload that
prefix is strict. -/
theorem C6_size_cap (szm : SizeModel) (records : List (Option FailureDetails))
    (st : DedupState) (h0 : st.stopped = false) (hp : st.processed = 0)
    (hss : st.ss.consumed ≤ st.ss.max) :
    (dedupLoop szm records st).ss.consumed ≤ (dedupLoop szm records st).ss.max ∧
    (dedupLoop szm records st).ss.max = st.ss.max ∧
    (dedupLoop szm records st).processed ≤ records.length ∧
    dedupLoop szm (records.take (dedupLoop szm records st).processed) st =
      { dedupLoop szm records st with stopped := false } ∧
    ((dedupLoop szm records st).stopped = true →
      (dedupLoop szm records st).processed < records.length) := by
  obtain ⟨k, hk1, hk2, hk3, hk4⟩ := dedup_take szm records st h0
  have hsz := dedup_ss_le szm records st hss
  rw [hp, Nat.zero_add] at hk2
  refine ⟨hsz.1, hsz.2, ?_, ?_, ?_⟩
  · rw [hk2]; exact hk1
  · rw [hk2]; exact hk3
  · intro hs; rw [hk2]; exact hk4 hs

/-- Witness for C6: budget 15, two distinct payloads of size 10 each —
the first is admitted, the second overflows, the loop stops after a
strict prefix of length 1 and the consumed size stays within the cap. -/
theorem C6_witness :
    (dedupLoop ⟨0, fun _ => 0, fun _ => 10⟩
        [some ⟨"a", 0⟩, some ⟨"b", 0⟩] ⟨[], 0, 0, ⟨0, 15⟩, 0, false⟩).ss.consumed ≤
      (dedupLoop ⟨0, fun _ => 0, fun _ => 10⟩
        [some ⟨"a", 0⟩, some ⟨"b", 0⟩] ⟨[], 0, 0, ⟨0, 15⟩, 0, false⟩).ss.max ∧
    (dedupLoop ⟨0, fun _ => 0, fun _ => 10⟩
        [some ⟨"a", 0⟩, some ⟨"b", 0⟩] ⟨[], 0, 0, ⟨0, 15⟩, 0, false⟩).ss.max = 15 ∧
    (dedupLoop ⟨0, fun _ => 0, fun _ => 10⟩
        [some ⟨"a", 0⟩, some ⟨"b", 0⟩] ⟨[], 0, 0, ⟨0, 15⟩, 0, false⟩).processed ≤ 2 ∧
    dedupLoop ⟨0, fun _ => 0, fun _ => 10⟩
        ([some ⟨"a", 0⟩, some ⟨"b", 0⟩].take
          (dedupLoop ⟨0, fun _ => 0, fun _ => 10⟩
            [some ⟨"a", 0⟩, some ⟨"b", 0⟩] ⟨[], 0, 0, ⟨0, 15⟩, 0, false⟩).processed)
        ⟨[], 0, 0, ⟨0, 15⟩, 0, false⟩ =
      { dedupLoop ⟨0, fun _ => 0, fun _ => 10⟩
          [some ⟨"a", 0⟩, some ⟨"b", 0⟩] ⟨[], 0, 0, ⟨0, 15⟩, 0, false⟩ with stopped := false } ∧
    ((dedupLoop ⟨0, fun _ => 0, fun _ => 10⟩
        [some ⟨"a", 0⟩, some ⟨"b", 0⟩] ⟨[], 0, 0, ⟨0, 15⟩, 0, false⟩).stopped = true →
      (dedupLoop ⟨0, fun _ => 0, fun _ => 10⟩
        [some ⟨"a", 0⟩, some ⟨"b", 0⟩] ⟨[], 0, 0, ⟨0, 15⟩, 0, false⟩).processed < 2) :=
  C6_size_cap ⟨0, fun _ => 0, fun _ => 10⟩ [some ⟨"a", 0⟩, some ⟨"b", 0⟩]
    ⟨[], 0, 0, ⟨0, 15⟩, 0, false⟩ rfl rfl (by decide)

/-! ## Association list key lemmas and dedup counting -/

theorem countOcc_cons (r : Option FailureDetails) (rest : List (Option FailureDetails))
    (x : Option FailureDetails) :
    countOcc (r :: rest) x = countOcc rest x + (if r = x then 1 else 0) := by
  by_cases h : r = x <;> simp [countOcc, List.filter, h]

theorem alookup_none_not_mem {κ ν : Type} [DecidableEq κ] (l : List (κ × ν)) (k : κ)
    (h : alookup l k = none) : k ∉ l.map Prod.fst := by
  induction l with
  | nil => simp
  | cons p rest ih =>
    simp only [alookup] at h
    by_cases hp : p.1 = k
    · simp [hp] at h
    · simp only [hp, if_false] at h
      simp only [List.map_cons, List.mem_cons]
      push_neg
      exact ⟨fun hk => hp hk.symm, ih h⟩

theorem aset_keys_of_some {κ ν : Type} [DecidableEq κ] (l : List (κ × ν)) (k : κ) (v c : ν)
    (h : alookup l k = some c) : (aset l k v).map Prod.fst = l.map Prod.fst := by
  induction l with
  | nil => simp [alookup] at h
  | cons p rest ih =>
    simp only [alookup] at h
    by_cases hp : p.1 = k
    · simp [aset, hp]
    · simp only [hp, if_false] at h
      simp [aset, hp, ih h]

theorem aset_keys_of_none {κ ν : Type} [DecidableEq κ] (l : List (κ × ν)) (k : κ) (v : ν)
    (h : alookup l k = none) : (aset l k v).map Prod.fst = l.map Prod.fst ++ [k] := by
  induction l with
  | nil => simp [aset]
  | cons p rest ih =>
    simp only [alookup] at h
    by_cases hp : p.1 = k
    · simp [hp] at h
    · simp only [hp, if_false] at h
      simp [aset, hp, ih h]

theorem dedup_counts (szm : SizeModel) :
    ∀ (records : List (Option FailureDetails)) (st : DedupState),
      (dedupLoop szm records st).stopped = false → st.stopped = false →
      (∀ fd, mapCount (dedupLoop szm records st).record_map fd =
        mapCount st.record_map fd + countOcc records (some fd)) ∧
      (dedupLoop szm records st).total_success = st.total_success + countOcc records none ∧
      ((st.record_map.map Prod.fst).Nodup →
        ((dedupLoop szm records st).record_map.map Prod.fst).Nodup) := by
  intro records
  induction records with
  | nil =>
    intro st _ _
    exact ⟨fun fd => by simp [dedupLoop, countOcc], by simp [dedupLoop, countOcc],
      fun h => by simpa [dedupLoop] using h⟩
  | cons r rest ih =>
    intro st hstop h0
    cases r with
    | none =>
      have hred : dedupLoop szm (none :: rest) st =
          dedupLoop szm rest
            { st with total_success := st.total_success + 1,
                      processed := st.processed + 1 } := rfl
      rw [hred] at hstop ⊢
      obtain ⟨h1, h2, h3⟩ := ih _ hstop (by simpa using h0)
      refine ⟨fun fd => ?_, ?_, fun hn => h3 (by simpa using hn)⟩
      · rw [h1 fd, countOcc_cons]
        simp
      · rw [h2, countOcc_cons]
        simp
        omega
    | some fd0 =>
      cases hl : alookup st.record_map fd0 with
      | some c =>
        have hred : dedupLoop szm (some fd0 :: rest) st =
            dedupLoop szm rest
              { st with record_map := aset st.record_map fd0 (c + 1),
                        total_failure := st.total_failure + 1,
                        processed := st.processed + 1 } := by
          simp [dedupLoop, hl]
        rw [hred] at hstop ⊢
        obtain ⟨h1, h2, h3⟩ := ih _ hstop (by simpa using h0)
        refine ⟨fun fd => ?_, ?_, fun hn => ?_⟩
        · rw [h1 fd, countOcc_cons]
          by_cases hfd : fd = fd0
          · subst hfd
            simp only [mapCount, alookup_aset_self, hl]
            simp
            omega
          · have hne : fd0 ≠ fd := fun he => hfd he.symm
            simp only [mapCount, alookup_aset_ne st.record_map fd0 fd (c + 1) hne]
            simp [hne]
        · rw [h2, countOcc_cons]
          simp
        · have hkeys := aset_keys_of_some st.record_map fd0 (c + 1) c hl
          apply h3
          simpa [hkeys] using hn
      | none =>
        by_cases hsz : st.ss.consumed + szm.fdSize fd0 ≤ st.ss.max
        · have hred : dedupLoop szm (some fd0 :: rest) st =
              dedupLoop szm rest
                { st with record_map := aset st.record_map fd0 1,
                          total_failure := st.total_failure + 1,
                          ss := { st.ss with consumed := st.ss.consumed + szm.fdSize fd0 },
                          processed := st.processed + 1 } := by
            simp [dedupLoop, hl, SerializedSize.serialize, hsz]
          rw [hred] at hstop ⊢
          obtain ⟨h1, h2, h3⟩ := ih _ hstop (by simpa using h0)
          refine ⟨fun fd => ?_, ?_, fun hn => ?_⟩
          · rw [h1 fd, countOcc_cons]
            by_cases hfd : fd = fd0
            · subst hfd
              simp only [mapCount, alookup_aset_self, hl]
              simp
              omega
            · have hne : fd0 ≠ fd := fun he => hfd he.symm
              simp only [mapCount, alookup_aset_ne st.record_map fd0 fd 1 hne]
              simp [hne]
          · rw [h2, countOcc_cons]
            simp
          · have hkeys := aset_keys_of_none st.record_map fd0 1 hl
            have hnm := alookup_none_not_mem st.record_map fd0 hl
            apply h3
            rw [hkeys]
            simp [List.nodup_append, hn, hnm]
        · have hred : dedupLoop szm (some fd0 :: rest) st = { st with stopped := true } := by
            simp [dedupLoop, hl, SerializedSize.serialize, hsz]
          rw [hred] at hstop
          simp at hstop

/-- Claim C7: when the scan of a group completes (no size-cap stop), all
events with identical failure payloads collapse into one record whose
count equals the number of occurrences (the record map stays key-unique),
and each success sentinel bumps the policy summary's success counter
instead of producing a record; concretely, aggregating 3 identical
failure events plus 2 success events yields exactly one failure-detail
record with count 3 and summary (success 2, failure 3). -/
theorem C7_dedup_collapse (szm : SizeModel) (records : List (Option FailureDetails))
    (ss : SerializedSize)
    (hstop : (dedupLoop szm records
      { record_map := [], total_success := 0, total_failure := 0,
        ss := ss, processed := 0, stopped := false }).stopped = false) :
    (∀ fd, mapCount (dedupLoop szm records
        { record_map := [], total_success := 0, total_failure := 0,
          ss := ss, processed := 0, stopped := false }).record_map fd =
      countOcc records (some fd)) ∧
    (dedupLoop szm records
        { record_map := [], total_success := 0, total_failure := 0,
          ss := ss, processed := 0, stopped := false }).total_success =
      countOcc records none ∧
    ((dedupLoop szm records
        { record_map := [], total_success := 0, total_failure := 0,
          ss := ss, processed := 0, stopped := false }).record_map.map Prod.fst).Nodup ∧
    aggregateEvents
      { maxSize := 100, szm := ⟨0, fun _ => 0, fun _ => 0⟩,
        header := fun _ => .ok (some ⟨[], ⟨"example.org"⟩, []⟩),
        recordsOf := fun _ =>
          [some ⟨"tlsa-validation-failure", 0⟩, some ⟨"tlsa-validation-failure", 0⟩,
           some ⟨"tlsa-validation-failure", 0⟩, none, none],
        httpResp := fun _ => .netError, gzipOk := true }
      [⟨1, 2, 3, "example.org"⟩] ⟨0, 100⟩ [] [] =
      ([{ policy := ⟨"example.org"⟩, summary := ⟨2, 3⟩,
          failure_details := [⟨"tlsa-validation-failure", 3⟩] }], [], ⟨0, 100⟩) := by
  obtain ⟨h1, h2, h3⟩ := dedup_counts szm records
    { record_map := [], total_success := 0, total_failure := 0,
      ss := ss, processed := 0, stopped := false } hstop rfl
  refine ⟨fun fd => ?_, ?_, h3 (by simp), by rfl⟩
  · rw [h1 fd]
    simp [mapCount, alookup]
  · rw [h2]
    simp

/-- Witness for C7: the 3-failures-plus-2-successes example evaluated
through the theorem: one collapsed record with count 3, success count 2. -/
theorem C7_witness :
    mapCount (dedupLoop ⟨0, fun _ => 0, fun _ => 0⟩
        [some ⟨"tlsa-validation-failure", 0⟩, some ⟨"tlsa-validation-failure", 0⟩,
         some ⟨"tlsa-validation-failure", 0⟩, none, none]
        { record_map := [], total_success := 0, total_failure := 0,
          ss := ⟨0, 100⟩, processed := 0, stopped := false }).record_map
      ⟨"tlsa-validation-failure", 0⟩ =
      countOcc
        [some ⟨"tlsa-validation-failure", 0⟩, some ⟨"tlsa-validation-failure", 0⟩,
         some ⟨"tlsa-validation-failure", 0⟩, none, none]
        (some ⟨"tlsa-validation-failure", 0⟩) ∧
    (dedupLoop ⟨0, fun _ => 0, fun _ => 0⟩
        [some ⟨"tlsa-validation-failure", 0⟩, some ⟨"tlsa-validation-failure", 0⟩,
         some ⟨"tlsa-validation-failure", 0⟩, none, none]
        { record_map := [], total_success := 0, total_failure := 0,
          ss := ⟨0, 100⟩, processed := 0, stopped := false }).total_success =
      countOcc
        [some ⟨"tlsa-validation-failure", 0⟩, some ⟨"tlsa-validation-failure", 0⟩,
         some ⟨"tlsa-validation-failure", 0⟩, none, none] none :=
  ⟨(C7_dedup_collapse ⟨0, fun _ => 0, fun _ => 0⟩
      [some ⟨"tlsa-validation-failure", 0⟩, some ⟨"tlsa-validation-failure", 0⟩,
       some ⟨"tlsa-validation-failure", 0⟩, none, none] ⟨0, 100⟩ (by decide)).1
      ⟨"tlsa-validation-failure", 0⟩,
   (C7_dedup_collapse ⟨0, fun _ => 0, fun _ => 0⟩
      [some ⟨"tlsa-validation-failure", 0⟩, some ⟨"tlsa-validation-failure", 0⟩,
       some ⟨"tlsa-validation-failure", 0⟩, none, none] ⟨0, 100⟩ (by decide)).2.1⟩

/-! ## Cleanup idempotence -/

theorem filter_fuse {α : Type} (p q : α → Bool) (l : List α) :
    (l.filter p).filter q = l.filter (fun a => p a && q a) := by
  induction l with
  | nil => rfl
  | cons x xs ih =>
    by_cases hp : p x <;> by_cases hq : q x <;> simp [List.filter, hp, hq, ih]

theorem applyClears_eq_filter :
    ∀ (batch : List QueueKey) (st : QueueStore),
      applyClears st batch =
        st.filter (fun kv => !(batch.any (fun k => decide (kv.1 = k)))) := by
  intro batch
  induction batch with
  | nil =>
    intro st
    simp [applyClears]
  | cons k rest ih =>
    intro st
    have hstep : applyClears st (k :: rest) =
        applyClears (st.filter (fun kv => decide (kv.1 ≠ k))) rest := rfl
    rw [hstep, ih, filter_fuse]
    apply List.filter_congr
    intro kv _
    simp [Bool.not_or, decide_not]

theorem deleteGo_spec :
    ∀ (events : List ReportEvent) (pos : Nat) (st : QueueStore) (batch : List QueueKey),
      deleteGo events pos st batch =
        (st.filter (fun kv => !(events.any (fun e => inEventRange e kv.1))),
         batch ++ clearsOf events pos) := by
  intro events
  induction events with
  | nil =>
    intro pos st batch
    simp [deleteGo, clearsOf]
  | cons e rest ih =>
    intro pos st batch
    have hstep : deleteGo (e :: rest) pos st batch =
        deleteGo rest (pos + 1) (delete_range st e)
          ((if pos = 0 then batch ++ [tls_lock e] else batch) ++ [QueueKey.tlsReportHeader e]) :=
      rfl
    rw [hstep, ih]
    refine Prod.ext ?_ ?_
    · show (delete_range st e).filter _ = _
      rw [delete_range, filter_fuse]
      apply List.filter_congr
      intro kv _
      simp [Bool.not_or]
    · show _ ++ clearsOf rest (pos + 1) = batch ++ clearsOf (e :: rest) pos
      by_cases hpos : pos = 0 <;> simp [clearsOf, hpos]

theorem delete_tls_report_eq_filter (st : QueueStore) (events : List ReportEvent) :
    delete_tls_report st events = st.filter (fun kv => !(deletePred events kv.1)) := by
  unfold delete_tls_report
  rw [deleteGo_spec, applyClears_eq_filter, filter_fuse]
  apply List.filter_congr
  intro kv _
  simp [deletePred, Bool.not_or]

/-- Claim C8: `delete_tls_report` is idempotent: running the cleanup a
second time with the same events list over the state left by the first
run removes nothing further and leaves the store exactly as the first run
left it (range deletions over already-deleted event keys and clears of
already-cleared header and lock keys have no effect). -/
theorem C8_cleanup_idempotent (st : QueueStore) (events : List ReportEvent) :
    delete_tls_report (delete_tls_report st events) events = delete_tls_report st events := by
  have h := delete_tls_report_eq_filter
  rw [h (delete_tls_report st events) events, h st events, filter_fuse]
  apply List.filter_congr
  intro kv _
  simp
